import Mathlib

/-!
Verification of the `xiaomi` BLE clock-sync utility.

Shallow embedding of the Rust sources:
  * `src/xiaomi/src/lib.rs`  — bluetooth address formatting / parsing,
  * `src/xiaomi/src/ble.rs`  — advertisement decoder, sync coordinator,
    clock-sync protocol,
  * `src/xiaomi/src/main.rs` — locking discipline of the `on_received`
    callback (modelled as a transition system in the concurrency section).

Conventions used throughout:
  * Rust `String` / `&str` values are modelled as `List Char`.
  * Machine integers are modelled as `Nat` / `Int` with explicit `% 2 ^ w`
    wrapping where the Rust code casts between widths.
  * A Rust panic (out-of-bounds slice index) is modelled by an `Option`
    result being `none`.
  * `f32` sensor values are modelled exactly over `ℚ`; every concrete value
    the claims mention (`25.0`, integer battery percentages, the sign of a
    reading) is exactly representable, so the abstraction is faithful for
    the stated properties.
-/

/-! ### Hexadecimal digit helpers -/

/-- Uppercase hexadecimal digit, as produced by Rust `format!("{:02X}")`. -/
def hexDigitUpper (d : Nat) : Char :=
  if d < 10 then Char.ofNat (48 + d) else Char.ofNat (55 + d)

/-- Rust `char::to_digit(16)`: accepts `0-9`, `a-f`, `A-F`. -/
def fromHexDigit (c : Char) : Option Nat :=
  if 48 ≤ c.toNat ∧ c.toNat ≤ 57 then some (c.toNat - 48)
  else if 97 ≤ c.toNat ∧ c.toNat ≤ 102 then some (c.toNat - 87)
  else if 65 ≤ c.toNat ∧ c.toNat ≤ 70 then some (c.toNat - 55)
  else none

/-- The two-character, zero-padded uppercase rendering of one byte,
as produced by `format!("{:02X}", b)` for `b : u8`. -/
def formatByte (b : Nat) : List Char :=
  [hexDigitUpper (b / 16), hexDigitUpper (b % 16)]

/-! ### `lib.rs`: `format_bluetooth_address` -/

/-- `format_bluetooth_address` (lib.rs): renders the low 48 bits of a `u64`
as six colon-separated uppercase hex bytes, most significant byte first. -/
def format_bluetooth_address (value : Nat) : List Char :=
  formatByte ((value >>> 40) % 256) ++ ':' ::
  (formatByte ((value >>> 32) % 256) ++ ':' ::
  (formatByte ((value >>> 24) % 256) ++ ':' ::
  (formatByte ((value >>> 16) % 256) ++ ':' ::
  (formatByte ((value >>> 8) % 256) ++ ':' ::
  formatByte (value % 256)))))

/-! ### `lib.rs`: `decode_bluetooth_adddress` -/

/-- Accumulating digit loop of Rust `uN::from_str_radix(s, 16)`:
fails on a non-hex character or when the value exceeds `limit`
(the type's maximum, where Rust reports overflow). -/
def parseHexDigits (limit : Nat) : List Char → Nat → Option Nat
  | [], acc => some acc
  | c :: rest, acc =>
    match fromHexDigit c with
    | none => none
    | some d =>
      let v := acc * 16 + d
      if limit < v then none else parseHexDigits limit rest v

/-- Rust `uN::from_str_radix(s, 16)`: empty input fails, one leading `+`
is allowed, otherwise every character must be a hex digit. -/
def from_str_radix_16 (limit : Nat) (s : List Char) : Option Nat :=
  match s with
  | [] => none
  | c :: rest =>
    if c = '+' then
      (if rest.isEmpty then none else parseHexDigits limit rest 0)
    else parseHexDigits limit (c :: rest) 0

/-- Rust `str::split(':')` (producing the pieces as `List Char` each). -/
def splitOnColon : List Char → List (List Char)
  | [] => [[]]
  | c :: rest =>
    if c = ':' then [] :: splitOnColon rest
    else
      match splitOnColon rest with
      | [] => [[c]]
      | p :: ps => (c :: p) :: ps

/-- The `for b in bytes` loop of `decode_bluetooth_adddress`:
`converted = (converted << 8) | (v as u64)` per piece,
failing on the first piece that is not a valid `u8` hex literal. -/
def decodeBytesAcc : List (List Char) → Nat → Option Nat
  | [], acc => some acc
  | b :: rest, acc =>
    match from_str_radix_16 255 b with
    | some v => decodeBytesAcc rest ((acc <<< 8) ||| v)
    | none => none

/-- `decode_bluetooth_adddress` (lib.rs): first try the whole string as a
bare hex `u64`; otherwise split on `:`, require exactly six pieces and
parse each piece as a hex `u8`. -/
def decode_bluetooth_adddress (value : List Char) : Except (List Char) Nat :=
  match from_str_radix_16 (2 ^ 64 - 1) value with
  | some decoded => .ok decoded
  | none =>
    let bytes := splitOnColon value
    if bytes.length ≠ 6 then .error "given address is not 6 byte form".toList
    else
      match decodeBytesAcc bytes 0 with
      | some converted => .ok converted
      | none => .error "parsing error.".toList

/-! ### `ble.rs`: advertisement decoder -/

/-- `ENVIRONMENTAL_SENSING_SERVICE_UUID` (ble.rs), as a 128-bit value. -/
def ENVIRONMENTAL_SENSING_SERVICE_UUID : Nat := 0x0000181a00001000800000805f9b34fb

/-- `LYWSD02_SERVICE_UUID` (ble.rs). -/
def LYWSD02_SERVICE_UUID : Nat := 0xEBE0CCB07A0A4B0C8A1A6FF2997DA3A6

/-- `LYWSD02_CHARACTERISTIC_TIME_UUID` (ble.rs). -/
def LYWSD02_CHARACTERISTIC_TIME_UUID : Nat := 0xEBE0CCB77A0A4B0C8A1A6FF2997DA3A6

/-- One advertisement data section: a type tag byte plus payload bytes
(`BluetoothLEAdvertisementDataSection`). -/
structure DataSection where
  dataType : Nat
  data : List Nat
deriving DecidableEq

/-- The parts of `BluetoothLEAdvertisementReceivedEventArgs` the decoder
reads: 48-bit device address, advertised service UUIDs, data sections. -/
structure RawAdvertisement where
  address : Nat
  serviceUuids : List Nat
  dataSections : List DataSection
deriving DecidableEq

/-- `SensorValue` (ble.rs); the `f32` value is modelled exactly over `ℚ`. -/
structure SensorValue where
  address : Nat
  value : ℚ
deriving DecidableEq

/-- `AdvertisementKind` (ble.rs).  In the terminology of the spec,
`Unknown` is the spec's `Unrecognized` ("address absent or service not
matched / data malformed") and `Omit` is the spec's `NotDecodable`
("vendor service matched, but no parseable service-data section found"). -/
inductive AdvertisementKind where
  | Unknown : AdvertisementKind
  | Omit : AdvertisementKind
  | Temperature : SensorValue → AdvertisementKind
  | Humidity : SensorValue → AdvertisementKind
  | Battery : SensorValue → AdvertisementKind
deriving DecidableEq

/-- The `match vector[14]` body of `decode_advertisement` for one
service-data payload.  The Rust code indexes `vector[14]`, `vector[17]`,
`vector[18]` without bounds checks; an out-of-range index panics, which
the embedding models as `none`. -/
def decodeServiceData (address : Nat) (vector : List Nat) : Option AdvertisementKind :=
  match vector[14]? with
  | none => none
  | some st =>
    if st = 4 then
      match (vector[17]? : Option Nat), (vector[18]? : Option Nat) with
      | some b17, some b18 =>
        some (.Temperature ⟨address, ((b17 : ℚ) + (b18 : ℚ) * 256) / 10⟩)
      | _, _ => none
    else if st = 6 then
      match (vector[17]? : Option Nat), (vector[18]? : Option Nat) with
      | some b17, some b18 =>
        some (.Humidity ⟨address, ((b17 : ℚ) + (b18 : ℚ) * 256) / 10⟩)
      | _, _ => none
    else if st = 10 then
      match (vector[17]? : Option Nat) with
      | some b17 => some (.Battery ⟨address, (b17 : ℚ)⟩)
      | none => none
    else some .Unknown

/-- The `for section in advertisement.DataSections()` loop of
`decode_advertisement`: the first section whose type tag is `0x16` is
decoded (every arm of the inner `match` returns); if no section matches,
the loop falls through to `return AdvertisementKind::Omit`. -/
def scanSections (address : Nat) : List DataSection → Option AdvertisementKind
  | [] => some .Omit
  | section_ :: rest =>
    if section_.dataType = 0x16 then decodeServiceData address section_.data
    else scanSections address rest

/-- `decode_advertisement` (ble.rs). -/
def decode_advertisement (args : Option RawAdvertisement) : Option AdvertisementKind :=
  match args with
  | some args =>
    if args.serviceUuids.length ≠ 0 ∧
       ENVIRONMENTAL_SENSING_SERVICE_UUID ∈ args.serviceUuids then
      scanSections args.address args.dataSections
    else some .Unknown
  | none => some .Unknown

/-! ### `ble.rs`: log formatting helpers -/

/-- Decimal rendering of a natural number (Rust `{}` for unsigned ints). -/
def natDec (n : Nat) : List Char := Nat.toDigits 10 n

/-- Lowercase hexadecimal rendering (Rust `{:x}`). -/
def natHexLower (n : Nat) : List Char := Nat.toDigits 16 n

/-- Rust `{:+}` formatting of a signed integer: always print the sign. -/
def fmtPlusInt (x : Int) : List Char :=
  if 0 ≤ x then '+' :: natDec x.toNat else '-' :: natDec (-x).toNat

/-- Rust `{:02}` formatting of a signed integer: zero-pad to width two
(the sign counts towards the width). -/
def fmtPad2 (x : Int) : List Char :=
  if 0 ≤ x then
    (if x < 10 then '0' :: natDec x.toNat else natDec x.toNat)
  else '-' :: natDec (-x).toNat

/-- `SyncLogKind` (ble.rs). -/
inductive SyncLogKind where
  | Progress : Nat → List Char → SyncLogKind
  | Error : Nat → List Char → SyncLogKind
deriving DecidableEq

/-- `true` exactly on `SyncLogKind::Error` events. -/
def isErrorLog : SyncLogKind → Bool
  | .Error _ _ => true
  | _ => false

/-- Number of `Error` events in a log sequence. -/
def errorCount (l : List SyncLogKind) : Nat := l.countP isErrorLog

/-! ### `ble.rs`: `sync_xiaomi_clock` message texts -/

/-- Progress text "Connecting...". -/
def connectingMsg : List Char := "Connecting...".toList

/-- Failure reason "Failed to connect". -/
def failedConnectMsg : List Char := "Failed to connect".toList

/-- Progress text of the service query, including the hex UUID. -/
def queryServiceMsg : List Char :=
  "Querying service, UUID=".toList ++ natHexLower LYWSD02_SERVICE_UUID

/-- Failure reason "Failed to query service". -/
def failedQueryServiceMsg : List Char := "Failed to query service".toList

/-- Failure reason "Communication error". -/
def commErrorMsg : List Char := "Communication error".toList

/-- Failure reason "No services returned". -/
def noServicesMsg : List Char := "No services returned".toList

/-- Progress text of the characteristic query, including the hex UUID. -/
def queryCharMsg : List Char :=
  "Querying characteristic, UUID=".toList ++ natHexLower LYWSD02_CHARACTERISTIC_TIME_UUID

/-- Failure reason "Failed to query characteristic". -/
def failedQueryCharMsg : List Char := "Failed to query characteristic".toList

/-- Failure reason "No characteristic returned". -/
def noCharsMsg : List Char := "No characteristic returned".toList

/-- Failure reason "Failed to sync time". -/
def failedSyncMsg : List Char := "Failed to sync time".toList

/-- `format!("Adjust clock {:+}:{:02} ", diff / 60, diff % 60)` with Rust's
truncating division and remainder. -/
def adjustMsg (diff : Int) : List Char :=
  "Adjust clock ".toList ++ fmtPlusInt (diff.tdiv 60) ++
    ':' :: fmtPad2 (diff.tmod 60) ++ " ".toList

/-- `format!("Sync clock {} [timezone:{:+}]", epoch_time, timezone)`. -/
def syncClockMsg (epoch_time : Nat) (timezone : Int) : List Char :=
  "Sync clock ".toList ++ natDec epoch_time ++ " [timezone:".toList ++
    fmtPlusInt timezone ++ "]".toList

/-- `format!("Configured as Omit")` (sync_device_args). -/
def omitMsg : List Char := "Configured as Omit".toList

/-! ### `ble.rs`: `sync_xiaomi_clock` time computation -/

/-- Two's-complement wrap of an integer into the `i64` range
(the effect of Rust's `as i64` cast and of wrapping `i64` addition). -/
def wrap64 (x : Int) : Int := (x + 2 ^ 63) % 2 ^ 64 - 2 ^ 63

/-- The timezone selection of `sync_xiaomi_clock`: start from the default
`9`, replace it by the caller-supplied hour offset only when that offset
lies in `[-24, 24]`. -/
def computeTimezone (timezone_diff_hour : Option Int) : Int :=
  match timezone_diff_hour with
  | none => 9
  | some tz => if -24 ≤ tz ∧ tz ≤ 24 then tz else 9

/-- The offset-adjustment block of `sync_xiaomi_clock`: signed addition of
the configured second offset to the epoch; the adjusted value is kept (and
an "Adjust clock" line logged) only when it is strictly positive.
Returns the resulting epoch together with the logged lines. -/
def adjust_offset (epoch_time : Nat) (offset_seconds : Option Int) :
    Nat × List (List Char) :=
  match offset_seconds with
  | none => (epoch_time, [])
  | some diff =>
    let temp := wrap64 (wrap64 (epoch_time : Int) + diff)
    if 0 < temp then (temp.toNat, [adjustMsg diff]) else (epoch_time, [])

/-- The write-buffer construction of `sync_xiaomi_clock`: a little-endian
`DataWriter` receiving `WriteUInt32(epoch_time as u32)` then
`WriteByte(timezone as u8)`. -/
def makeBuffer (epoch_time : Nat) (timezone : Int) : List Nat :=
  let e := epoch_time % 2 ^ 32
  [e % 256, e / 2 ^ 8 % 256, e / 2 ^ 16 % 256, e / 2 ^ 24 % 256,
   (timezone % 256).toNat]

/-! ### `ble.rs`: `sync_xiaomi_clock` -/

/-- Outcome of the external BLE calls performed by one protocol run
(`BluetoothLEDevice::FromBluetoothAddressAsync`, the two GATT queries,
`get_unix_epoc`, and `WriteValueAsync`), which are collaborators outside
the core.  Each field corresponds to one observable result the Rust code
branches on. -/
structure SyncEnv where
  connectOk : Bool
  serviceTransportOk : Bool
  serviceStatusSuccess : Bool
  serviceCount : Nat
  charTransportOk : Bool
  charStatusSuccess : Bool
  charCount : Nat
  epoch : Nat
  writeOk : Bool
deriving DecidableEq

instance {ε α : Type} [DecidableEq ε] [DecidableEq α] : DecidableEq (Except ε α) :=
  fun x y =>
    match x, y with
    | .ok a, .ok b =>
      if h : a = b then isTrue (by rw [h]) else isFalse (by simp [h])
    | .error a, .error b =>
      if h : a = b then isTrue (by rw [h]) else isFalse (by simp [h])
    | .ok _, .error _ => isFalse (by simp)
    | .error _, .ok _ => isFalse (by simp)

/-- Observable outcome of one `sync_xiaomi_clock` run: the `Progress`
events sent through the channel, the buffer passed to `WriteValueAsync`
(if the run reached the write), and the `Result<(), String>`. -/
structure SyncRun where
  logs : List SyncLogKind
  written : Option (List Nat)
  result : Except (List Char) Unit
deriving DecidableEq

/-- `sync_xiaomi_clock` (ble.rs): connect, resolve service, resolve
characteristic, compute the target time, write the 5-byte buffer, report.
Each step first emits a `Progress` event; any failure aborts the run with
the corresponding reason string. -/
def sync_xiaomi_clock (env : SyncEnv) (address : Nat)
    (timezone_diff_hour : Option Int) (offset_seconds : Option Int) : SyncRun :=
  let l1 : List SyncLogKind := [.Progress address connectingMsg]
  if ¬ env.connectOk then ⟨l1, none, .error failedConnectMsg⟩ else
  let l2 := l1 ++ [.Progress address queryServiceMsg]
  if ¬ env.serviceTransportOk then ⟨l2, none, .error failedQueryServiceMsg⟩ else
  if ¬ env.serviceStatusSuccess then ⟨l2, none, .error commErrorMsg⟩ else
  if env.serviceCount = 0 then ⟨l2, none, .error noServicesMsg⟩ else
  let l3 := l2 ++ [.Progress address queryCharMsg]
  if ¬ env.charTransportOk then ⟨l3, none, .error failedQueryCharMsg⟩ else
  if ¬ env.charStatusSuccess then ⟨l3, none, .error commErrorMsg⟩ else
  if env.charCount = 0 then ⟨l3, none, .error noCharsMsg⟩ else
  let timezone := computeTimezone timezone_diff_hour
  let adj := adjust_offset env.epoch offset_seconds
  let epoch_time := adj.1
  let l4 := l3 ++ adj.2.map (SyncLogKind.Progress address)
  let buffer := makeBuffer epoch_time timezone
  if ¬ env.writeOk then ⟨l4, some buffer, .error failedSyncMsg⟩ else
  ⟨l4 ++ [.Progress address (syncClockMsg epoch_time timezone)], some buffer, .ok ()⟩

/-! ### `ble.rs` / `lib.rs`: sync coordinator -/

/-- `DeviceConfig` (lib.rs), as the coordinator reads it.  The Rust field
`timezone : Option<String>` is only ever consumed through
`get_timezone_diff_hour()`, whose value comes from the external `chrono-tz`
timezone database; the model therefore carries that method's result
directly as `timezone_diff_hour`. -/
structure DeviceConfig where
  address : Nat
  name : Option (List Char)
  «omit» : Option Bool
  timezone_diff_hour : Option Int
  offset_seconds : Option Int
deriving DecidableEq

/-- The `is_omit` closure of `sync_device_args`: the device's `omit` flag
if configured, `false` otherwise. -/
def is_omit (config : Nat → Option DeviceConfig) (address : Nat) : Bool :=
  match config address with
  | some device =>
    match device.omit with
    | some omitted => omitted
    | none => false
  | none => false

/-- The `timezone_hour` read of `sync_device_args` (stays `None` when the
address has no config entry). -/
def cfg_timezone_hour (config : Nat → Option DeviceConfig) (address : Nat) :
    Option Int :=
  match config address with
  | some device_config => device_config.timezone_diff_hour
  | none => none

/-- The `offset_seconds` read of `sync_device_args` (stays `None` when the
address has no config entry). -/
def cfg_offset_seconds (config : Nat → Option DeviceConfig) (address : Nat) :
    Option Int :=
  match config address with
  | some device_config => device_config.offset_seconds
  | none => none

/-- `HashSet::insert` on the handled-devices set, modelled on a
duplicate-free list. -/
def insertHandled (address : Nat) (l : List Nat) : List Nat :=
  if address ∈ l then l else address :: l

/-- Observable state threaded through `sync_device_args`: the
`handled_devices` set, the messages sent through the `mpsc` channel, and
a ghost counter `runs` recording how often `sync_xiaomi_clock` was
invoked (instrumentation only; it has no influence on the behaviour). -/
structure CoordState where
  handled_devices : List Nat
  sent : List SyncLogKind
  runs : Nat
deriving DecidableEq

/-- `sync_device_args` (ble.rs): decode the advertisement; act only on
`Temperature`/`Humidity` readings; skip already-handled addresses; mark
and log omitted devices; otherwise run `sync_xiaomi_clock`, inserting the
address into `handled_devices` only on success and sending one `Error`
event with the failure reason otherwise.  A decoder panic (`none`)
propagates. -/
def sync_device_args (config : Nat → Option DeviceConfig) (env : SyncEnv)
    (st : CoordState) (args : Option RawAdvertisement) : Option CoordState :=
  match decode_advertisement args with
  | none => none
  | some (.Temperature v) | some (.Humidity v) =>
    let address := v.address
    some (
      if address ∈ st.handled_devices then st
      else if is_omit config address then
        { handled_devices := insertHandled address st.handled_devices,
          sent := st.sent ++ [SyncLogKind.Progress address omitMsg],
          runs := st.runs }
      else
        let run := sync_xiaomi_clock env address
          (cfg_timezone_hour config address) (cfg_offset_seconds config address)
        match run.result with
        | .ok _ =>
          { handled_devices := insertHandled address st.handled_devices,
            sent := st.sent ++ run.logs,
            runs := st.runs + 1 }
        | .error msg =>
          { handled_devices := st.handled_devices,
            sent := st.sent ++ run.logs ++ [SyncLogKind.Error address msg],
            runs := st.runs + 1 })
  | some _ => some st

/-! ### `main.rs`: locking discipline of `on_received`

In `sync` (main.rs), every delivery of an advertisement runs
`let mut _lifetime = lock.lock().unwrap(); ble::sync_device_args(...)`:
the whole decide-and-act sequence for one advertisement — the
`handled_devices` membership test, the protocol run and the insertion —
executes with the session lock held continuously.  The model below is a
transition system with two callback threads delivering an advertisement
for the same (not-yet-handled, not omitted) address, where the protocol
run succeeds.  Each thread walks through the program counters

  0: acquire the session lock (blocks while the other thread holds it);
  1: test `handled_devices` membership (inside the lock);
  2: run the protocol (counted in `runs`) and insert the address;
  3: release the lock;   4: done.

Interleaving is an arbitrary schedule of thread ids. -/

/-- Shared state of the two-callback interleaving model. -/
structure ConcState where
  lockOwner : Option Bool
  handled : List Nat
  runs : Nat
  pc1 : Nat
  pc2 : Nat
deriving DecidableEq

/-- Program counter of thread `t`. -/
def pcOf (s : ConcState) (t : Bool) : Nat := if t then s.pc1 else s.pc2

/-- Replace the program counter of thread `t`. -/
def setPc (s : ConcState) (t : Bool) (n : Nat) : ConcState :=
  if t then { s with pc1 := n } else { s with pc2 := n }

/-- One small step of thread `t` handling an advertisement for `addr`
under the `main.rs` locking discipline (protocol run succeeding). -/
def concStep (addr : Nat) (s : ConcState) (t : Bool) : ConcState :=
  if pcOf s t = 0 then
    (if s.lockOwner = none then setPc { s with lockOwner := some t } t 1 else s)
  else if pcOf s t = 1 then
    (if addr ∈ s.handled then setPc s t 3 else setPc s t 2)
  else if pcOf s t = 2 then
    setPc { s with runs := s.runs + 1,
                   handled := insertHandled addr s.handled } t 3
  else if pcOf s t = 3 then setPc { s with lockOwner := none } t 4
  else s

/-- Run a schedule (list of thread ids) from a state. -/
def runSched (addr : Nat) : List Bool → ConcState → ConcState
  | [], s => s
  | t :: ts, s => runSched addr ts (concStep addr s t)

/-- Initial state: lock free, no address handled, no protocol run yet. -/
def initConc : ConcState := ⟨none, [], 0, 0, 0⟩

/-! ### Decoder lemmas -/

/-- Sections whose type tag is not `0x16` are skipped by the scan loop. -/
theorem scanSections_skip (a : Nat) (pre rest : List DataSection)
    (h : ∀ s ∈ pre, s.dataType ≠ 0x16) :
    scanSections a (pre ++ rest) = scanSections a rest := by
  induction pre with
  | nil => rfl
  | cons x xs ih =>
    have hx : x.dataType ≠ 0x16 := h x (by simp)
    simp only [List.cons_append, scanSections, if_neg hx]
    exact ih (fun s hs => h s (by simp [hs]))

/-- On a vendor advertisement, `decode_advertisement` decodes the first
`0x16` data section. -/
theorem decode_advertisement_first_service_data (addr : Nat) (svcs : List Nat)
    (pre post : List DataSection) (sec : DataSection)
    (hsvc : ENVIRONMENTAL_SENSING_SERVICE_UUID ∈ svcs)
    (hpre : ∀ s ∈ pre, s.dataType ≠ 0x16)
    (hsec : sec.dataType = 0x16) :
    decode_advertisement (some ⟨addr, svcs, pre ++ sec :: post⟩)
      = decodeServiceData addr sec.data := by
  have hlen : svcs.length ≠ 0 := by
    cases svcs with
    | nil => cases hsvc
    | cons a l => simp
  simp only [decode_advertisement, if_pos (And.intro hlen hsvc)]
  rw [scanSections_skip addr pre (sec :: post) hpre]
  simp only [scanSections, if_pos hsec]

/-! ### Claim C1 -/

/-- The value field as the spec reads it: bytes 17 and 18 interpreted as a
little-endian SIGNED 16-bit integer.  (Definition written from the spec's
words, for comparison against the code's interpretation.) -/
def spec_signed16_le (lo hi : Nat) : Int :=
  let v := lo % 256 + (hi % 256) * 256
  if v < 2 ^ 15 then (v : Int) else (v : Int) - 2 ^ 16

/-- Sample temperature payload: sub-type `4` at offset 14, value bytes
`[0xFA, 0x00]` at offsets 17-18. -/
def tempPayload250 : List Nat := [0,0,0,0,0,0,0,0,0,0,0,0,0,0,4,0,0,250,0]

/-- Sample temperature payload with the high bit of the raw 16-bit value
set: value bytes `[0x00, 0x80]` at offsets 17-18. -/
def tempPayloadHighBit : List Nat := [0,0,0,0,0,0,0,0,0,0,0,0,0,0,4,0,0,0,128]

/-- A vendor advertisement with the given data sections, address 1. -/
def vendorAdv (sections : List DataSection) : RawAdvertisement :=
  ⟨1, [ENVIRONMENTAL_SENSING_SERVICE_UUID], sections⟩

/-- Claim C1, amended: on a vendor advertisement whose first `0x16`
service-data section carries sub-type 4, `decode_advertisement` returns
`Temperature` whose value is the bytes at offsets 17-18 interpreted as a
little-endian UNSIGNED 16-bit integer divided by 10 (never negative);
sub-type 6 is decoded identically as `Humidity`. -/
theorem c1_unsigned_value_decode (addr : Nat) (svcs : List Nat)
    (pre post : List DataSection) (sec : DataSection) (lo hi : Nat)
    (hsvc : ENVIRONMENTAL_SENSING_SERVICE_UUID ∈ svcs)
    (hpre : ∀ s ∈ pre, s.dataType ≠ 0x16)
    (hsec : sec.dataType = 0x16)
    (h17 : sec.data[17]? = some lo)
    (h18 : sec.data[18]? = some hi) :
    (sec.data[14]? = some 4 →
      decode_advertisement (some ⟨addr, svcs, pre ++ sec :: post⟩)
        = some (.Temperature ⟨addr, ((lo : ℚ) + (hi : ℚ) * 256) / 10⟩))
    ∧ (sec.data[14]? = some 6 →
      decode_advertisement (some ⟨addr, svcs, pre ++ sec :: post⟩)
        = some (.Humidity ⟨addr, ((lo : ℚ) + (hi : ℚ) * 256) / 10⟩))
    ∧ 0 ≤ ((lo : ℚ) + (hi : ℚ) * 256) / 10 := by
  have hscan := decode_advertisement_first_service_data addr svcs pre post sec
    hsvc hpre hsec
  refine ⟨?_, ?_, by positivity⟩
  · intro h14
    rw [hscan]
    simp [decodeServiceData, h14, h17, h18]
  · intro h14
    rw [hscan]
    simp [decodeServiceData, h14, h17, h18]

/-- Witness for C1: the spec's own example — value bytes `[0xFA, 0x00]`
yield `Temperature` with value `25`. -/
theorem c1_witness :
    decode_advertisement (some ⟨1, [ENVIRONMENTAL_SENSING_SERVICE_UUID],
        [⟨0x16, tempPayload250⟩]⟩)
      = some (.Temperature ⟨1, (((250 : Nat) : ℚ) + ((0 : Nat) : ℚ) * 256) / 10⟩)
    ∧ (((250 : Nat) : ℚ) + ((0 : Nat) : ℚ) * 256) / 10 = 25 :=
  ⟨(c1_unsigned_value_decode 1 [ENVIRONMENTAL_SENSING_SERVICE_UUID] [] []
      ⟨0x16, tempPayload250⟩ 250 0 (by decide) (by simp) rfl (by decide)
      (by decide)).1 (by decide),
   by norm_num⟩

/-- Counterexample to C1 as stated: with value bytes `[0x00, 0x80]` (high
bit set) the code decodes the unsigned value `32768`, giving `+3276.8`,
whereas the claimed signed interpretation is `-32768`, which would give a
negative temperature. -/
theorem c1_counterexample :
    decode_advertisement (some (vendorAdv [⟨0x16, tempPayloadHighBit⟩]))
      = some (.Temperature ⟨1, (((0 : Nat) : ℚ) + ((128 : Nat) : ℚ) * 256) / 10⟩)
    ∧ spec_signed16_le 0 128 = -32768
    ∧ 0 ≤ (((0 : Nat) : ℚ) + ((128 : Nat) : ℚ) * 256) / 10
    ∧ ((spec_signed16_le 0 128 : ℚ)) / 10 < 0
    ∧ (((0 : Nat) : ℚ) + ((128 : Nat) : ℚ) * 256) / 10
        ≠ ((spec_signed16_le 0 128 : ℚ)) / 10 := by
  refine ⟨by rfl, by norm_num [spec_signed16_le], by positivity, ?_, ?_⟩
  · norm_num [spec_signed16_le]
  · norm_num [spec_signed16_le]

/-! ### Claim C2 -/

/-- A 14-byte service-data payload: too short even for the sub-type byte
at offset 14. -/
def shortPayload14 : List Nat := [0,0,0,0,0,0,0,0,0,0,0,0,0,0]

/-- An 18-byte service-data payload with sub-type 4: offset 17 exists but
offset 18 (the high value byte) does not. -/
def shortPayload18 : List Nat := [0,0,0,0,0,0,0,0,0,0,0,0,0,0,4,0,0,0]

/-- Claim C2, evaluated on the code: a vendor advertisement whose `0x16`
section payload is shorter than the fixed offsets makes
`decode_advertisement` index out of bounds — a panic (modelled `none`),
not the claimed `NotDecodable` (`Omit`) classification. -/
theorem c2_short_payload_panics :
    decode_advertisement (some (vendorAdv [⟨0x16, shortPayload14⟩])) = none
    ∧ decode_advertisement (some (vendorAdv [⟨0x16, shortPayload18⟩])) = none
    ∧ (none : Option AdvertisementKind) ≠ some .Omit := by decide

/-! ### Claim C3 -/

/-- Claim C3, amended: on a vendor advertisement, a sub-type byte other
than 4/6/10 makes `decode_advertisement` return `Unknown` (the spec's
`Unrecognized`), not `Omit`; the `Omit` (spec `NotDecodable`)
classification is produced exactly when no `0x16` data section is
present. -/
theorem c3_unknown_subtype_vs_missing_section (addr : Nat) (svcs : List Nat)
    (pre post : List DataSection) (sec : DataSection) (b : Nat)
    (sections : List DataSection)
    (hsvc : ENVIRONMENTAL_SENSING_SERVICE_UUID ∈ svcs) :
    ((∀ s ∈ pre, s.dataType ≠ 0x16) → sec.dataType = 0x16 →
      sec.data[14]? = some b → b ≠ 4 → b ≠ 6 → b ≠ 10 →
      decode_advertisement (some ⟨addr, svcs, pre ++ sec :: post⟩)
        = some .Unknown)
    ∧ ((∀ s ∈ sections, s.dataType ≠ 0x16) →
      decode_advertisement (some ⟨addr, svcs, sections⟩) = some .Omit) := by
  have hlen : svcs.length ≠ 0 := by
    cases svcs with
    | nil => cases hsvc
    | cons a l => simp
  constructor
  · intro hpre hsec h14 h4 h6 h10
    rw [decode_advertisement_first_service_data addr svcs pre post sec hsvc
      hpre hsec]
    simp [decodeServiceData, h14, h4, h6, h10]
  · intro hsecs
    simp only [decode_advertisement, if_pos (And.intro hlen hsvc)]
    have h := scanSections_skip addr sections [] hsecs
    rw [List.append_nil] at h
    rw [h]
    rfl

/-- A 19-byte service-data payload with the unknown sub-type 99. -/
def subtype99Payload : List Nat := [0,0,0,0,0,0,0,0,0,0,0,0,0,0,99,0,0,0,0]

/-- A 19-byte service-data payload with the unknown sub-type 7. -/
def subtype7Payload : List Nat := [0,0,0,0,0,0,0,0,0,0,0,0,0,0,7,0,0,0,0]

/-- Counterexample to C3 as stated: sub-type 99 yields `Unknown` (the
spec's `Unrecognized`), not the claimed `NotDecodable` (`Omit`). -/
theorem c3_counterexample :
    decode_advertisement (some (vendorAdv [⟨0x16, subtype99Payload⟩]))
      = some .Unknown
    ∧ AdvertisementKind.Unknown ≠ AdvertisementKind.Omit := by decide

/-- Witness for C3: unknown sub-type 7 yields `Unknown`; a vendor
advertisement with no data sections yields `Omit`. -/
theorem c3_witness :
    decode_advertisement (some ⟨1, [ENVIRONMENTAL_SENSING_SERVICE_UUID],
        [] ++ (⟨0x16, subtype7Payload⟩ : DataSection) :: []⟩) = some .Unknown
    ∧ decode_advertisement (some ⟨1, [ENVIRONMENTAL_SENSING_SERVICE_UUID],
        ([] : List DataSection)⟩) = some .Omit :=
  ⟨(c3_unknown_subtype_vs_missing_section 1 [ENVIRONMENTAL_SENSING_SERVICE_UUID]
      [] [] ⟨0x16, subtype7Payload⟩ 7 [] (by decide)).1 (by simp) rfl (by decide)
      (by decide) (by decide) (by decide),
   (c3_unknown_subtype_vs_missing_section 1 [ENVIRONMENTAL_SENSING_SERVICE_UUID]
      [] [] ⟨0x16, subtype7Payload⟩ 7 [] (by decide)).2 (by simp)⟩

/-! ### Claim C6 -/

/-- Claim C6: with a configured second offset, `sync_xiaomi_clock` adds it
to the epoch as a signed computation and commits the adjusted value
exactly when the result is strictly positive (logging the offset); a zero
or negative result is silently discarded.  Epoch `1000` with offset `+120`
commits `1120` and logs "Adjust clock +2:00 "; epoch `1000` with offset
`-2000` keeps `1000`.  (The bounds keep the `i64` arithmetic of the source
away from wrap-around, which no realistic epoch reaches.) -/
theorem c6_offset_adjustment (e : Nat) (d : Int)
    (he : e < 2 ^ 62) (hd1 : -(2 ^ 31) ≤ d) (hd2 : d < 2 ^ 31) :
    ((0 < (e : Int) + d →
      adjust_offset e (some d) = (((e : Int) + d).toNat, [adjustMsg d]))
    ∧ ((e : Int) + d ≤ 0 → adjust_offset e (some d) = (e, [])))
    ∧ adjust_offset 1000 (some 120) = (1120, ["Adjust clock +2:00 ".toList])
    ∧ adjust_offset 1000 (some (-2000)) = (1000, []) := by
  have hw : wrap64 (wrap64 (e : Int) + d) = (e : Int) + d := by
    unfold wrap64
    omega
  refine ⟨⟨?_, ?_⟩, by decide, by decide⟩
  · intro hpos
    simp only [adjust_offset, hw, if_pos hpos]
  · intro hnonpos
    simp only [adjust_offset, hw, if_neg (by omega : ¬ 0 < (e : Int) + d)]

/-- Witness for C6: the spec's two examples, via the theorem. -/
theorem c6_witness :
    adjust_offset 1000 (some 120) = ((((1000 : Nat) : Int) + 120).toNat, [adjustMsg 120])
    ∧ adjust_offset 1000 (some 120) = (1120, ["Adjust clock +2:00 ".toList])
    ∧ adjust_offset 1000 (some (-2000)) = (1000, []) :=
  ⟨(c6_offset_adjustment 1000 120 (by decide) (by decide) (by decide)).1.1 (by decide),
   (c6_offset_adjustment 1000 120 (by decide) (by decide) (by decide)).2.1,
   (c6_offset_adjustment 1000 120 (by decide) (by decide) (by decide)).2.2⟩

/-! ### Claim C7 -/

/-- Claim C7: a caller-supplied timezone hour offset is used if and only
if it lies in the inclusive range `[-24, 24]`; out-of-range or absent
offsets fall back to the default `+9`.  In particular `25` is rejected
while `-24` and `24` are accepted. -/
theorem c7_timezone_bounds (tz : Int) :
    (computeTimezone (some tz) = tz ↔ (-24 ≤ tz ∧ tz ≤ 24))
    ∧ (¬ (-24 ≤ tz ∧ tz ≤ 24) → computeTimezone (some tz) = 9)
    ∧ computeTimezone none = 9
    ∧ computeTimezone (some 25) = 9
    ∧ computeTimezone (some (-24)) = -24
    ∧ computeTimezone (some 24) = 24 := by
  refine ⟨⟨?_, ?_⟩, ?_, rfl, by decide, by decide, by decide⟩
  · intro h
    by_cases hr : -24 ≤ tz ∧ tz ≤ 24
    · exact hr
    · simp only [computeTimezone, if_neg hr] at h
      omega
  · intro hr
    simp only [computeTimezone, if_pos hr]
  · intro hr
    simp only [computeTimezone, if_neg hr]

/-- Witness for C7: bound values through the theorem. -/
theorem c7_witness :
    computeTimezone (some 30) = 9 ∧ computeTimezone (some 24) = 24 :=
  ⟨(c7_timezone_bounds 30).2.1 (by decide),
   (c7_timezone_bounds 24).2.2.2.2.2⟩

/-! ### Claim C8 -/

/-- Claim C8: the buffer handed to `WriteValueAsync` is exactly five
bytes: the low 32 bits of the computed epoch in little-endian order,
followed by the timezone hour as one two's-complement byte; and every
buffer `sync_xiaomi_clock` ever writes has this shape, built from the
offset-adjusted epoch and the selected timezone. -/
theorem c8_buffer_layout (e : Nat) (tz : Int) (h1 : -128 ≤ tz) (h2 : tz ≤ 127) :
    (makeBuffer e tz).length = 5
    ∧ (∃ b0 b1 b2 b3,
        makeBuffer e tz = [b0, b1, b2, b3, (tz % 256).toNat]
        ∧ b0 + 2 ^ 8 * b1 + 2 ^ 16 * b2 + 2 ^ 24 * b3 = e % 2 ^ 32
        ∧ b0 < 256 ∧ b1 < 256 ∧ b2 < 256 ∧ b3 < 256)
    ∧ ((tz % 256).toNat : Int) = (if 0 ≤ tz then tz else tz + 256)
    ∧ (∀ env addr tzh off buf,
        (sync_xiaomi_clock env addr tzh off).written = some buf →
        buf = makeBuffer (adjust_offset env.epoch off).1 (computeTimezone tzh)) := by
  refine ⟨rfl, ?_, ?_, ?_⟩
  · refine ⟨e % 2 ^ 32 % 256, e % 2 ^ 32 / 2 ^ 8 % 256, e % 2 ^ 32 / 2 ^ 16 % 256,
      e % 2 ^ 32 / 2 ^ 24 % 256, rfl, ?_, ?_, ?_, ?_, ?_⟩ <;> omega
  · split <;> omega
  · intro env addr tzh off buf hw
    unfold sync_xiaomi_clock at hw
    repeat' split at hw
    all_goals simp_all

/-- Witness for C8: concrete epoch `4000000000` and timezone `-1`. -/
theorem c8_witness :
    (makeBuffer 4000000000 (-1)).length = 5
    ∧ makeBuffer 4000000000 (-1) = [0, 40, 107, 238, 255] :=
  ⟨(c8_buffer_layout 4000000000 (-1) (by decide) (by decide)).1, by decide⟩

/-! ### Coordinator lemmas -/

/-- The inserted address is a member of the updated handled set. -/
theorem mem_insertHandled (a : Nat) (l : List Nat) : a ∈ insertHandled a l := by
  unfold insertHandled
  split
  · assumption
  · exact List.mem_cons_self a l

/-- A protocol run sends only `Progress` events through the channel;
failures are returned to the coordinator, never sent as `Error` here. -/
theorem sync_xiaomi_clock_no_error_logs (env : SyncEnv) (address : Nat)
    (tzh off : Option Int) :
    errorCount (sync_xiaomi_clock env address tzh off).logs = 0 := by
  have hmap : ∀ l : List (List Char),
      (l.map (SyncLogKind.Progress address)).countP isErrorLog = 0 := by
    intro l
    induction l with
    | nil => rfl
    | cons x xs ih => simp [List.countP_cons, isErrorLog, ih]
  unfold sync_xiaomi_clock
  repeat' split
  all_goals
    simp [errorCount, List.countP_append, List.countP_cons, isErrorLog, hmap]

/-! ### Claim C4 -/

/-- Claim C4: an advertisement for an already-handled address is a
complete no-op (no log, no protocol run, no state change); and for a
not-yet-handled, non-omitted address whose protocol run succeeds, a second
delivery of the same Temperature reading leaves the state unchanged, so
the protocol runs exactly once across the two calls. -/
theorem c4_idempotent_handling (config : Nat → Option DeviceConfig)
    (env : SyncEnv) (st : CoordState) (args : Option RawAdvertisement)
    (v : SensorValue)
    (hdec : decode_advertisement args = some (.Temperature v)) :
    (v.address ∈ st.handled_devices →
      sync_device_args config env st args = some st)
    ∧ (v.address ∉ st.handled_devices → is_omit config v.address = false →
      (sync_xiaomi_clock env v.address (cfg_timezone_hour config v.address)
          (cfg_offset_seconds config v.address)).result = .ok () →
      ∃ st1, sync_device_args config env st args = some st1
        ∧ sync_device_args config env st1 args = some st1
        ∧ st1.runs = st.runs + 1) := by
  constructor
  · intro hmem
    simp only [sync_device_args, hdec, if_pos hmem]
  · intro hmem homit hok
    refine ⟨{ handled_devices := insertHandled v.address st.handled_devices,
              sent := st.sent ++ (sync_xiaomi_clock env v.address
                (cfg_timezone_hour config v.address)
                (cfg_offset_seconds config v.address)).logs,
              runs := st.runs + 1 }, ?_, ?_, rfl⟩
    · simp only [sync_device_args, hdec, if_neg hmem, homit, Bool.false_eq_true,
        if_false, hok]
    · simp only [sync_device_args, hdec,
        if_pos (mem_insertHandled v.address st.handled_devices)]

/-- Sample vendor Temperature advertisement used by the coordinator
witnesses (value bytes `[0xFA, 0x00]`, address 1). -/
def sampleTempAdv : RawAdvertisement := vendorAdv [⟨0x16, tempPayload250⟩]

/-- The decoded reading carried by `sampleTempAdv`. -/
def sampleV : SensorValue :=
  ⟨1, (((250 : Nat) : ℚ) + ((0 : Nat) : ℚ) * 256) / 10⟩

/-- An empty device registry. -/
def cfgEmpty : Nat → Option DeviceConfig := fun _ => none

/-- An environment in which every external BLE call succeeds. -/
def envAllOk : SyncEnv := ⟨true, true, true, 1, true, true, 1, 1000, true⟩

/-- An environment in which opening the device session fails. -/
def envConnectFail : SyncEnv := ⟨false, true, true, 1, true, true, 1, 1000, true⟩

/-- The coordinator state at session start. -/
def st0 : CoordState := ⟨[], [], 0⟩

/-- Witness for C4: two deliveries of the sample reading with an
all-success environment run the protocol exactly once. -/
theorem c4_witness :
    ∃ st1, sync_device_args cfgEmpty envAllOk st0 (some sampleTempAdv) = some st1
      ∧ sync_device_args cfgEmpty envAllOk st1 (some sampleTempAdv) = some st1
      ∧ st1.runs = st0.runs + 1 :=
  (c4_idempotent_handling cfgEmpty envAllOk st0 (some sampleTempAdv) sampleV
    rfl).2 (by decide) (by decide) (by decide)

/-! ### Claim C5 -/

/-- Claim C5: for a decoded, not-yet-handled, non-omitted address, a
failing protocol run leaves `handled_devices` unchanged (the address stays
eligible for a retry) and sends exactly one `Error` event carrying the
failure reason; a succeeding run inserts the address. -/
theorem c5_failure_keeps_eligible (config : Nat → Option DeviceConfig)
    (env : SyncEnv) (st : CoordState) (args : Option RawAdvertisement)
    (v : SensorValue)
    (hdec : decode_advertisement args = some (.Temperature v))
    (hmem : v.address ∉ st.handled_devices)
    (homit : is_omit config v.address = false) :
    (∀ msg,
      (sync_xiaomi_clock env v.address (cfg_timezone_hour config v.address)
          (cfg_offset_seconds config v.address)).result = .error msg →
      sync_device_args config env st args
        = some { handled_devices := st.handled_devices,
                 sent := st.sent ++ (sync_xiaomi_clock env v.address
                     (cfg_timezone_hour config v.address)
                     (cfg_offset_seconds config v.address)).logs
                   ++ [SyncLogKind.Error v.address msg],
                 runs := st.runs + 1 }
      ∧ errorCount ((sync_xiaomi_clock env v.address
            (cfg_timezone_hour config v.address)
            (cfg_offset_seconds config v.address)).logs
          ++ [SyncLogKind.Error v.address msg]) = 1)
    ∧ (∀ u,
      (sync_xiaomi_clock env v.address (cfg_timezone_hour config v.address)
          (cfg_offset_seconds config v.address)).result = .ok u →
      sync_device_args config env st args
        = some { handled_devices := insertHandled v.address st.handled_devices,
                 sent := st.sent ++ (sync_xiaomi_clock env v.address
                     (cfg_timezone_hour config v.address)
                     (cfg_offset_seconds config v.address)).logs,
                 runs := st.runs + 1 }
      ∧ v.address ∈ insertHandled v.address st.handled_devices) := by
  constructor
  · intro msg herr
    constructor
    · simp only [sync_device_args, hdec, if_neg hmem, homit, Bool.false_eq_true,
        if_false, herr]
    · simp only [errorCount, List.countP_append, List.countP_cons,
        List.countP_nil, isErrorLog]
      have h0 := sync_xiaomi_clock_no_error_logs env v.address
        (cfg_timezone_hour config v.address) (cfg_offset_seconds config v.address)
      simp only [errorCount] at h0
      simp [h0]
  · intro u hok
    constructor
    · simp only [sync_device_args, hdec, if_neg hmem, homit, Bool.false_eq_true,
        if_false, hok]
    · exact mem_insertHandled v.address st.handled_devices

/-- Witness for C5: a failing connection leaves the handled set empty and
produces exactly one `Error` event with reason "Failed to connect". -/
theorem c5_witness :
    sync_device_args cfgEmpty envConnectFail st0 (some sampleTempAdv)
      = some { handled_devices := st0.handled_devices,
               sent := st0.sent ++ (sync_xiaomi_clock envConnectFail
                   sampleV.address (cfg_timezone_hour cfgEmpty sampleV.address)
                   (cfg_offset_seconds cfgEmpty sampleV.address)).logs
                 ++ [SyncLogKind.Error sampleV.address failedConnectMsg],
               runs := st0.runs + 1 }
    ∧ errorCount ((sync_xiaomi_clock envConnectFail sampleV.address
          (cfg_timezone_hour cfgEmpty sampleV.address)
          (cfg_offset_seconds cfgEmpty sampleV.address)).logs
        ++ [SyncLogKind.Error sampleV.address failedConnectMsg]) = 1 :=
  (c5_failure_keeps_eligible cfgEmpty envConnectFail st0 (some sampleTempAdv)
    sampleV rfl (by decide) (by decide)).1 failedConnectMsg (by decide)

/-! ### Claim C9 -/

/-- Invariant of the interleaving model: the lock owner is the unique
thread inside the critical section (pc 1-3); a thread about to run the
protocol has seen the address unhandled; the ghost run counter matches
membership of the address in the handled set; a thread past the decision
has seen the address handled. -/
def concInv (addr : Nat) (s : ConcState) : Prop :=
  (1 ≤ s.pc1 ∧ s.pc1 ≤ 3 → s.lockOwner = some true)
  ∧ (1 ≤ s.pc2 ∧ s.pc2 ≤ 3 → s.lockOwner = some false)
  ∧ (s.pc1 = 2 → addr ∉ s.handled)
  ∧ (s.pc2 = 2 → addr ∉ s.handled)
  ∧ (s.runs = if addr ∈ s.handled then 1 else 0)
  ∧ (s.handled = [] ∨ s.handled = [addr])
  ∧ (3 ≤ s.pc1 → addr ∈ s.handled)
  ∧ (3 ≤ s.pc2 → addr ∈ s.handled)

/-- The invariant holds initially. -/
theorem concInv_init (addr : Nat) : concInv addr initConc := by
  simp [concInv, initConc]

/-- One step of either thread preserves the invariant. -/
theorem concInv_step (addr : Nat) (s : ConcState) (t : Bool)
    (h : concInv addr s) : concInv addr (concStep addr s t) := by
  obtain ⟨c1, c2, c3, c4, c5, c6, c7, c8⟩ := h
  rcases s with ⟨lk, hd, r, p1, p2⟩
  simp only [concInv] at *
  rcases c6 with hc | hc <;> subst hc <;>
    cases t <;>
      simp only [concStep, pcOf, setPc, if_true, if_false, Bool.false_eq_true,
        ite_true, ite_false, insertHandled] <;>
      split_ifs <;>
      simp_all <;>
      omega

/-- The invariant holds after any schedule. -/
theorem concInv_runSched (addr : Nat) (sched : List Bool) (s : ConcState)
    (h : concInv addr s) : concInv addr (runSched addr sched s) := by
  induction sched generalizing s with
  | nil => exact h
  | cons t ts ih => exact ih (concStep addr s t) (concInv_step addr s t h)

/-- Claim C9: under the `main.rs` locking discipline (the whole
decide-and-act sequence runs with the session lock held), no interleaving
of two callback deliveries for the same address ever produces two protocol
runs; and once both deliveries have completed, the protocol ran exactly
once and the handled set contains the address exactly once. -/
theorem c9_lock_exactly_once (addr : Nat) (sched : List Bool) :
    (runSched addr sched initConc).runs ≤ 1
    ∧ ((runSched addr sched initConc).pc1 = 4 →
       (runSched addr sched initConc).pc2 = 4 →
       (runSched addr sched initConc).runs = 1
       ∧ (runSched addr sched initConc).handled = [addr]
       ∧ (runSched addr sched initConc).handled.count addr = 1) := by
  obtain ⟨c1, c2, c3, c4, c5, c6, c7, c8⟩ :=
    concInv_runSched addr sched initConc (concInv_init addr)
  constructor
  · rw [c5]
    split <;> omega
  · intro h1 h2
    have hm : addr ∈ (runSched addr sched initConc).handled := c7 (by omega)
    rcases c6 with hc | hc
    · rw [hc] at hm
      cases hm
    · refine ⟨?_, hc, ?_⟩
      · rw [c5, if_pos hm]
      · rw [hc]
        simp

/-- Witness for C9: a concrete overlapping-free schedule in which both
callbacks complete; the protocol ran once and address 5 is handled once. -/
theorem c9_witness :
    (runSched 5 [true, true, true, true, false, false, false, false]
        initConc).runs = 1
    ∧ (runSched 5 [true, true, true, true, false, false, false, false]
        initConc).handled = [5]
    ∧ (runSched 5 [true, true, true, true, false, false, false, false]
        initConc).handled.count 5 = 1 :=
  (c9_lock_exactly_once 5
    [true, true, true, true, false, false, false, false]).2 (by decide) (by decide)

/-! ### Claim C10: address formatting round-trip -/

/-- `x <<< 8 ||| v` is plain positional accumulation when `v` is a byte. -/
theorem lor_small (x v : Nat) (hv : v < 256) : x <<< 8 ||| v = x * 256 + v := by
  apply Nat.eq_of_testBit_eq
  intro i
  rw [Nat.testBit_lor]
  rcases Nat.lt_or_ge i 8 with hi | hi
  · have h1 : (x <<< 8).testBit i = false := by
      rw [Nat.testBit_shiftLeft]
      have h : ¬ (8 ≤ i) := by omega
      simp [h]
    rw [h1, Bool.false_or]
    have hmod : (x * 256 + v) % 2 ^ 8 = v := by omega
    conv_lhs => rw [← hmod]
    rw [Nat.testBit_mod_two_pow]
    simp [hi]
  · obtain ⟨j, rfl⟩ : ∃ j, i = 8 + j := ⟨i - 8, by omega⟩
    rw [Nat.testBit_shiftLeft]
    have h8 : 8 ≤ 8 + j := by omega
    have hv8 : v.testBit (8 + j) = false := by
      apply Nat.testBit_lt_two_pow
      calc v < 2 ^ 8 := hv
        _ ≤ 2 ^ (8 + j) := Nat.pow_le_pow_right (by omega) (by omega)
    have hr : (x * 256 + v).testBit (8 + j) = x.testBit j := by
      rw [Nat.testBit_to_div_mod, Nat.testBit_to_div_mod]
      have hdiv : (x * 256 + v) / 2 ^ (8 + j) = x / 2 ^ j := by
        rw [pow_add, ← Nat.div_div_eq_div_mul]
        congr 1
        omega
      rw [hdiv]
    rw [hr, hv8]
    simp [h8]

/-- Each hex digit round-trips through `fromHexDigit`, and is neither the
separator `:` nor the sign `+`. -/
theorem hexDigitUpper_spec : ∀ d, d < 16 →
    fromHexDigit (hexDigitUpper d) = some d
    ∧ hexDigitUpper d ≠ ':' ∧ hexDigitUpper d ≠ '+' := by decide

set_option maxRecDepth 4000 in
/-- Formatting one byte and parsing it back as a hex `u8` is the
identity. -/
theorem byte_roundtrip : ∀ b, b < 256 →
    from_str_radix_16 255 (formatByte b) = some b := by decide

/-- A colon anywhere in the input makes the hex-digit loop fail. -/
theorem parseHexDigits_colon (s : List Char) (hs : ':' ∈ s) :
    ∀ limit acc, parseHexDigits limit s acc = none := by
  induction s with
  | nil => cases hs
  | cons c rest ih =>
    intro limit acc
    rcases List.mem_cons.mp hs with hc | hc
    · unfold parseHexDigits
      rw [show fromHexDigit c = none from hc ▸ rfl]
    · unfold parseHexDigits
      cases hfd : fromHexDigit c with
      | none => rfl
      | some d =>
        simp only
        split
        · rfl
        · exact ih hc limit (acc * 16 + d)

/-- Unfolding equation of `from_str_radix_16` on a nonempty string. -/
theorem from_str_radix_16_cons (limit : Nat) (c : Char) (rest : List Char) :
    from_str_radix_16 limit (c :: rest)
      = if c = '+' then
          (if rest.isEmpty then none else parseHexDigits limit rest 0)
        else parseHexDigits limit (c :: rest) 0 := rfl

/-- A string that does not start with `+` and contains a colon is not a
bare hex integer. -/
theorem from_str_radix_16_colon (limit : Nat) (c : Char) (rest : List Char)
    (hc : c ≠ '+') (hmem : ':' ∈ c :: rest) :
    from_str_radix_16 limit (c :: rest) = none := by
  rw [from_str_radix_16_cons, if_neg hc]
  exact parseHexDigits_colon (c :: rest) hmem limit 0

/-- Unfolding equation of `splitOnColon` on a nonempty string. -/
theorem splitOnColon_cons (c : Char) (rest : List Char) :
    splitOnColon (c :: rest)
      = if c = ':' then [] :: splitOnColon rest
        else
          match splitOnColon rest with
          | [] => [[c]]
          | p :: ps => (c :: p) :: ps := rfl

/-- Splitting a colon-free string yields the string itself. -/
theorem splitOnColon_no_colon (l : List Char) (h : ':' ∉ l) :
    splitOnColon l = [l] := by
  induction l with
  | nil => rfl
  | cons c rest ih =>
    have hc : ¬ c = ':' := by
      intro he
      exact h (by rw [he]; exact List.mem_cons_self ':' rest)
    have h2 : ':' ∉ rest := fun hm => h (List.mem_cons_of_mem c hm)
    rw [splitOnColon_cons, if_neg hc, ih h2]

/-- Splitting peels off a colon-free prefix before a separator. -/
theorem splitOnColon_append (pre rest : List Char) (h : ':' ∉ pre) :
    splitOnColon (pre ++ ':' :: rest) = pre :: splitOnColon rest := by
  induction pre with
  | nil => simp [splitOnColon]
  | cons c cs ih =>
    have hc : ¬ c = ':' := by
      intro he
      exact h (by rw [he]; exact List.mem_cons_self ':' cs)
    have h2 : ':' ∉ cs := fun hm => h (List.mem_cons_of_mem c hm)
    rw [List.cons_append, splitOnColon_cons, if_neg hc, ih h2]

/-- The hex-digit loop never returns a value above the overflow limit. -/
theorem parseHexDigits_le (limit : Nat) (s : List Char) :
    ∀ acc v, acc ≤ limit → parseHexDigits limit s acc = some v → v ≤ limit := by
  induction s with
  | nil =>
    intro acc v hacc h
    simp [parseHexDigits] at h
    omega
  | cons c rest ih =>
    intro acc v hacc h
    unfold parseHexDigits at h
    cases hfd : fromHexDigit c with
    | none => rw [hfd] at h; cases h
    | some d =>
      rw [hfd] at h
      simp only at h
      split at h
      · cases h
      · exact ih (acc * 16 + d) v (by omega) h

/-- `from_str_radix_16` never returns a value above the overflow limit. -/
theorem from_str_radix_16_le (limit : Nat) (s : List Char) (v : Nat)
    (h : from_str_radix_16 limit s = some v) : v ≤ limit := by
  cases s with
  | nil =>
    rw [show from_str_radix_16 limit [] = none from rfl] at h
    cases h
  | cons c rest =>
    rw [from_str_radix_16_cons] at h
    split at h
    · split at h
      · cases h
      · exact parseHexDigits_le limit rest 0 v (by omega) h
    · exact parseHexDigits_le limit (c :: rest) 0 v (by omega) h

/-- One iteration of the byte-accumulation loop. -/
theorem decodeBytesAcc_cons (p : List Char) (ps : List (List Char)) (acc v : Nat)
    (hp : from_str_radix_16 255 p = some v) :
    decodeBytesAcc (p :: ps) acc = decodeBytesAcc ps (acc * 256 + v) := by
  have hv : v < 256 := by
    have := from_str_radix_16_le 255 p v hp
    omega
  simp only [decodeBytesAcc, hp, lor_small acc v hv]

/-- Claim C10: for every 48-bit address (a `u64` whose top 16 bits are
zero), decoding the colon-separated formatted string round-trips:
`decode_bluetooth_adddress (format_bluetooth_address a) = Ok a`. -/
theorem c10_roundtrip (a : Nat) (ha : a < 2 ^ 48) :
    decode_bluetooth_adddress (format_bluetooth_address a) = .ok a := by
  have hb : ∀ k : Nat, (a >>> k) % 256 < 256 := fun k => Nat.mod_lt _ (by omega)
  have hb5 : a % 256 < 256 := Nat.mod_lt _ (by omega)
  have hnc : ∀ b : Nat, b < 256 → ':' ∉ formatByte b := by
    intro b hbb hm
    have d1 : b / 16 < 16 := by omega
    have d2 : b % 16 < 16 := by omega
    simp only [formatByte, List.mem_cons, List.not_mem_nil, or_false] at hm
    rcases hm with hm | hm
    · exact (hexDigitUpper_spec (b / 16) d1).2.1 hm.symm
    · exact (hexDigitUpper_spec (b % 16) d2).2.1 hm.symm
  have hsplit : splitOnColon (format_bluetooth_address a)
      = [formatByte ((a >>> 40) % 256), formatByte ((a >>> 32) % 256),
         formatByte ((a >>> 24) % 256), formatByte ((a >>> 16) % 256),
         formatByte ((a >>> 8) % 256), formatByte (a % 256)] := by
    unfold format_bluetooth_address
    rw [splitOnColon_append _ _ (hnc _ (hb 40)),
        splitOnColon_append _ _ (hnc _ (hb 32)),
        splitOnColon_append _ _ (hnc _ (hb 24)),
        splitOnColon_append _ _ (hnc _ (hb 16)),
        splitOnColon_append _ _ (hnc _ (hb 8)),
        splitOnColon_no_colon _ (hnc _ hb5)]
  have hd0 : (a >>> 40) % 256 / 16 < 16 := by
    have := hb 40
    omega
  have hnone : from_str_radix_16 (2 ^ 64 - 1) (format_bluetooth_address a)
      = none := by
    obtain ⟨t, ht⟩ : ∃ t, format_bluetooth_address a
        = hexDigitUpper ((a >>> 40) % 256 / 16) :: t := ⟨_, rfl⟩
    rw [ht]
    apply from_str_radix_16_colon
    · exact (hexDigitUpper_spec _ hd0).2.2
    · rw [← ht]
      unfold format_bluetooth_address
      simp [List.mem_append]
  simp only [decode_bluetooth_adddress, hnone, hsplit]
  rw [decodeBytesAcc_cons _ _ _ _ (byte_roundtrip _ (hb 40)),
      decodeBytesAcc_cons _ _ _ _ (byte_roundtrip _ (hb 32)),
      decodeBytesAcc_cons _ _ _ _ (byte_roundtrip _ (hb 24)),
      decodeBytesAcc_cons _ _ _ _ (byte_roundtrip _ (hb 16)),
      decodeBytesAcc_cons _ _ _ _ (byte_roundtrip _ (hb 8)),
      decodeBytesAcc_cons _ _ _ _ (byte_roundtrip _ hb5)]
  have hval : (((((0 * 256 + (a >>> 40) % 256) * 256 + (a >>> 32) % 256) * 256
      + (a >>> 24) % 256) * 256 + (a >>> 16) % 256) * 256 + (a >>> 8) % 256) * 256
      + a % 256 = a := by
    simp only [Nat.shiftRight_eq_div_pow]
    omega
  rw [hval]
  simp [decodeBytesAcc]

/-- Witness for C10: the round-trip at the address from the repository's
own test, `0x112233445566`. -/
theorem c10_witness :
    decode_bluetooth_adddress (format_bluetooth_address 0x112233445566)
      = .ok 0x112233445566 :=
  c10_roundtrip 0x112233445566 (by decide)
